import Mathlib

/-
Verification development for the PLEX media processor.

The relevant parts of the Python sources (src/naming.py, src/config.py,
src/file_processing.py, src/main.py, src/utils.py, src/retention.py,
src/crf_helpers.py) are embedded shallowly below.  Filenames are lists of
characters; the regular expressions of the source are embedded as explicit
scanning functions with the exact leftmost-match and backtracking behaviour
of Python's re module on those concrete regexes; filesystem state is passed
explicitly.  External collaborators (ffprobe, the encoder, the adaptive
quality search) enter as parameters, mirroring the narrow interfaces the
code consumes them through.
-/

namespace PMP

/-! ### Character classes (ASCII, as used by the source regexes) -/

def isDigitC (c : Char) : Bool := c.isDigit

/-- Python regex class [A-Za-z0-9]. -/
def isAlnumC (c : Char) : Bool := c.isAlpha || c.isDigit

/-- Python regex word class \w over ASCII. -/
def isWordC (c : Char) : Bool := isAlnumC c || c == '_'

/-- Python regex whitespace class \s over ASCII. -/
def isSpaceC (c : Char) : Bool :=
  c == ' ' || c == '\t' || c == '\n' || c == '\r' || c == '\x0b' || c == '\x0c'

def lowerEq (a b : Char) : Bool := a.toLower == b.toLower

def toLowerL (cs : List Char) : List Char := cs.map Char.toLower

/-- Case-insensitive test that `tok` starts the list `cs`. -/
def lstartsWithCI : List Char → List Char → Bool
  | [], _ => true
  | _ :: _, [] => false
  | t :: ts, c :: cs => lowerEq t c && lstartsWithCI ts cs

/-- Exact (case-sensitive) test that `tok` starts the list `cs`. -/
def lstartsWithE : List Char → List Char → Bool
  | [], _ => true
  | _ :: _, [] => false
  | t :: ts, c :: cs => t == c && lstartsWithE ts cs

/-- Substring test, exact characters. -/
def containsSub : List Char → List Char → Bool
  | needle, [] => needle.isEmpty
  | needle, c :: cs => lstartsWithE needle (c :: cs) || containsSub needle cs

def parseNat (cs : List Char) : Nat :=
  cs.foldl (fun a c => 10 * a + (c.toNat - '0'.toNat)) 0

def natDigits (n : Nat) : List Char := Nat.toDigits 10 n

/-- Python format spec 02d for a natural number. -/
def pad2 (n : Nat) : List Char := if n < 10 then '0' :: natDigits n else natDigits n

/-- Python format spec 02d for an integer (width includes a sign). -/
def intPad2 (n : Int) : List Char :=
  if n < 0 then '-' :: natDigits n.natAbs else pad2 n.toNat

/-- Python str() of an integer. -/
def intDigits (n : Int) : List Char :=
  if n < 0 then '-' :: natDigits n.natAbs else natDigits n.toNat

/-- Python strip(): drop whitespace from both ends. -/
def stripWS (cs : List Char) : List Char :=
  ((cs.dropWhile isSpaceC).reverse.dropWhile isSpaceC).reverse

/-! ### EPISODE_PATTERNS from src/config.py, lines 79-92.

Each of the four compiled regexes is embedded as a scanner over the
filename that returns the list of its capturing groups at the leftmost
match, or none.  All four source regexes contain exactly one capturing
group, which the scanners reproduce. -/

/-- Boundary of regex 1: the alternation of string start and [^A-Za-z0-9]. -/
def boundNotAlnum : Option Char → Bool
  | none => true
  | some p => !isAlnumC p

/-- Boundary \b before a word character: start of string or a non-word char. -/
def boundNotWord : Option Char → Bool
  | none => true
  | some p => !isWordC p

/-- A digit run of length 1..3 followed by a non-digit: the combined effect
of the greedy quantifier in (\d{1,3}) and the lookahead (?!\d). A maximal
run of four or more digits fails at every backtracking depth. -/
def digitRun13 (cs : List Char) : Bool :=
  let ds := cs.takeWhile isDigitC
  !ds.isEmpty && decide (ds.length ≤ 3)

/-- Regex 1: (?:^|[^A-Za-z0-9])E(\d{1,3})(?!\d), IGNORECASE.  The argument
`prev` is the character just before the current position. -/
def epPat1Search : Option Char → List Char → Option (List (List Char))
  | prev, c :: cs =>
    if (c == 'E' || c == 'e') && boundNotAlnum prev && digitRun13 cs then
      some [cs.takeWhile isDigitC]
    else epPat1Search (some c) cs
  | _, [] => none

/-- Regex 2: \bx(\d{1,3})(?!\d), IGNORECASE. -/
def epPat2Search : Option Char → List Char → Option (List (List Char))
  | prev, c :: cs =>
    if (c == 'x' || c == 'X') && boundNotWord prev && digitRun13 cs then
      some [cs.takeWhile isDigitC]
    else epPat2Search (some c) cs
  | _, [] => none

/-- The three dash glyphs of regex 3. -/
def isDashC (c : Char) : Bool := c == '-' || c == '–' || c == '—'

/-- Body of regex 3 after the dash: \s*(\d{1,3})(?=\s*(?:\[|\(|\.|$)).  The
lookahead succeeds exactly when the maximal whitespace run after the digits
ends the string or is followed by a bracket, parenthesis or period. -/
def epPat3At (cs : List Char) : Option (List Char) :=
  let r1 := cs.dropWhile isSpaceC
  let ds := r1.takeWhile isDigitC
  if ds.isEmpty || decide (4 ≤ ds.length) then none
  else
    match (r1.drop ds.length).dropWhile isSpaceC with
    | [] => some ds
    | c :: _ => if c == '[' || c == '(' || c == '.' then some ds else none

/-- Regex 3: [-–—]\s*(\d{1,3})(?=\s*(?:\[|\(|\.|$)). -/
def epPat3Search : List Char → Option (List (List Char))
  | c :: cs =>
    if isDashC c then
      match epPat3At cs with
      | some ds => some [ds]
      | none => epPat3Search cs
    else epPat3Search cs
  | [] => none

/-- Separator class [\s\.\-:] of regex 4. -/
def sepClassC (c : Char) : Bool := isSpaceC c || c == '.' || c == '-' || c == ':'

/-- The tail of regex 4 after the keyword: [\s\.\-:]*?(\d{1,3})\b with the
lazy quantifier expanding one separator at a time. -/
def epPat4Digits : List Char → Option (List Char)
  | [] => none
  | c :: cs' =>
    let ds := (c :: cs').takeWhile isDigitC
    if !ds.isEmpty && decide (ds.length ≤ 3)
        && (match (c :: cs').drop ds.length with
            | [] => true
            | d :: _ => !isWordC d) then
      some ds
    else if sepClassC c && ds.isEmpty then epPat4Digits cs'
    else none

/-- The keyword alternation (?:Episode|Ep|Ep\.) of regex 4, tried at one
start position in the order written in the source. -/
def epPat4At (cs : List Char) : Option (List Char) :=
  match (if lstartsWithCI ("episode".toList) cs then epPat4Digits (cs.drop 7) else none) with
  | some ds => some ds
  | none =>
    match (if lstartsWithCI ("ep".toList) cs then epPat4Digits (cs.drop 2) else none) with
    | some ds => some ds
    | none =>
      if lstartsWithCI ("ep.".toList) cs then epPat4Digits (cs.drop 3) else none

/-- Regex 4: \b(?:Episode|Ep|Ep\.)[\s\.\-:]*?(\d{1,3})\b, IGNORECASE. -/
def epPat4Search : Option Char → List Char → Option (List (List Char))
  | prev, c :: cs =>
    if boundNotWord prev then
      match epPat4At (c :: cs) with
      | some ds => some [ds]
      | none => epPat4Search (some c) cs
    else epPat4Search (some c) cs
  | _, [] => none

/-- The ordered pattern list: first matching pattern wins, as in the loop of
extract_episode_number_and_version (src/naming.py, lines 97-107). -/
def runEpisodePatterns (name : List Char) : Option (List (List Char)) :=
  match epPat1Search none name with
  | some gs => some gs
  | none =>
    match epPat2Search none name with
    | some gs => some gs
    | none =>
      match epPat3Search name with
      | some gs => some gs
      | none => epPat4Search none name

/-- The raw extracted episode number: group 1 of the winning pattern. -/
def rawEpisode (name : List Char) : Option Nat :=
  match runEpisodePatterns name with
  | some gs => some (parseNat (gs.headD []))
  | none => none

/-- src/naming.py, extract_episode_number_and_version (lines 88-116): raw
episode from group 1; a second, set, numeric group would be the version,
default 1; offset correction discarded when the result drops below 1. -/
def extract_episode_number_and_version (name : List Char) (offset : Int) :
    Option (Int × Nat) :=
  match runEpisodePatterns name with
  | none => none
  | some gs =>
    let epNum : Int := (parseNat (gs.headD []) : Nat)
    let ver : Nat :=
      match gs with
      | _ :: g2 :: _ => if !g2.isEmpty && g2.all isDigitC then parseNat g2 else 1
      | _ => 1
    let corrected := epNum - offset
    some ((if corrected < 1 then epNum else corrected), ver)



/-! ### src/naming.py: tag_episode_in_name (lines 64-85) -/

/-- Search for S\d{2}E\d{2}, IGNORECASE (the already-tagged test). -/
def containsSxxExx : List Char → Bool
  | [] => false
  | c :: cs =>
    ((c == 'S' || c == 's') &&
      (match cs with
       | d1 :: d2 :: e :: e1 :: e2 :: _ =>
         isDigitC d1 && isDigitC d2 && (e == 'E' || e == 'e') && isDigitC e1 && isDigitC e2
       | _ => false)) || containsSxxExx cs

/-- The canonical tag S{season:02d}E{episode:02d}. -/
def sTag (season : Nat) (e : Int) : List Char :=
  'S' :: (pad2 season ++ 'E' :: intPad2 e)

/-- Length of a match of (?: - )\d{1,3}\s*(?:v\d+)? at the head of `cs`,
with the greedy quantifier semantics of re.sub, or none. -/
def dashNumMatchLen (cs : List Char) : Option Nat :=
  match cs with
  | ' ' :: '-' :: ' ' :: rest =>
    let ds := rest.takeWhile isDigitC
    if ds.isEmpty then none
    else
      let d := min ds.length 3
      let r1 := rest.drop d
      let ws := r1.takeWhile isSpaceC
      let vlen :=
        match r1.drop ws.length with
        | 'v' :: r3 =>
          let vs := r3.takeWhile isDigitC
          if vs.isEmpty then 0 else 1 + vs.length
        | _ => 0
      some (3 + d + ws.length + vlen)
  | _ => none

/-- re.sub of (?: - )\d{1,3}\s*(?:v\d+)? by " - " ++ tag: leftmost,
non-overlapping, all occurrences.  The fuel argument bounds the number of
consumed input characters. -/
def subDashNumAux (tag : List Char) : Nat → List Char → List Char
  | 0, cs => cs
  | _ + 1, [] => []
  | fuel + 1, c :: cs =>
    match dashNumMatchLen (c :: cs) with
    | some k => (' ' :: '-' :: ' ' :: tag) ++ subDashNumAux tag fuel ((c :: cs).drop k)
    | none => c :: subDashNumAux tag fuel cs

def subDashNum (tag : List Char) (cs : List Char) : List Char :=
  subDashNumAux tag cs.length cs

/-- src/naming.py, tag_episode_in_name (lines 64-85): a base name already
holding an SxxExx token is returned unchanged; otherwise the episode and
version extracted from the original name are formatted (version suffix only
above 1) and substituted for the " - NN[vM]" token. -/
def tag_episode_in_name (orig base : List Char) (season : Nat) (offset : Int) :
    List Char :=
  if containsSxxExx base then base
  else
    match extract_episode_number_and_version orig offset with
    | none => base
    | some (ep, ver) =>
      let fmt := sTag season ep ++ (if 1 < ver then 'v' :: natDigits ver else [])
      subDashNum fmt base

/-! ### src/naming.py: build_output_name with SUBSTITUTIONS (src/config.py,
lines 95-100).  Each table entry is one re.sub pass over the stem. -/

/-- Boundary \b relative to an optional neighbouring character. -/
def boundB : Option Char → Bool
  | none => true
  | some c => !isWordC c

/-- One re.sub pass replacing a single word-bounded token, IGNORECASE. -/
def replTokAux (tok repl : List Char) : Nat → Option Char → List Char → List Char
  | 0, _, cs => cs
  | _ + 1, _, [] => []
  | fuel + 1, prev, c :: cs =>
    if boundB prev && lstartsWithCI tok (c :: cs)
        && boundB (((c :: cs).drop tok.length).head?) then
      repl ++ replTokAux tok repl fuel (((c :: cs).take tok.length).getLast?)
        ((c :: cs).drop tok.length)
    else c :: replTokAux tok repl fuel (some c) cs

/-- First alternative of the codec alternation matching at `cs` with a word
boundary after it, in source order. -/
def findAlt (toks : List (List Char)) (cs : List Char) : Option (List Char) :=
  match toks with
  | [] => none
  | t :: ts =>
    if lstartsWithCI t cs && boundB ((cs.drop t.length).head?) then some t
    else findAlt ts cs

/-- One re.sub pass replacing a word-bounded alternation, IGNORECASE. -/
def replAltsAux (toks : List (List Char)) (repl : List Char) :
    Nat → Option Char → List Char → List Char
  | 0, _, cs => cs
  | _ + 1, _, [] => []
  | fuel + 1, prev, c :: cs =>
    if boundB prev then
      match findAlt toks (c :: cs) with
      | some t =>
        repl ++ replAltsAux toks repl fuel (((c :: cs).take t.length).getLast?)
          ((c :: cs).drop t.length)
      | none => c :: replAltsAux toks repl fuel (some c) cs
    else c :: replAltsAux toks repl fuel (some c) cs

/-- The formatted resolution replacement, e.g. 1080p_AV1_10Bit_C30. -/
def resRepl (res : List Char) (crf bit : Int) : List Char :=
  res ++ ("_AV1_".toList) ++ intDigits bit ++ ("Bit_C".toList) ++ intDigits crf

def codecAlts : List (List Char) :=
  [("hevc".toList), ("x265".toList), ("x264".toList),
   ("h.265".toList), ("h.264".toList), ("avc".toList)]

/-- src/naming.py, build_output_name (lines 53-61): the four SUBSTITUTIONS
passes applied in table order to the stem. -/
def build_output_name (stem : List Char) (crf bit : Int) : List Char :=
  let n1 := replTokAux ("2160p".toList) (resRepl ("2160p".toList) crf bit) stem.length none stem
  let n2 := replTokAux ("1080p".toList) (resRepl ("1080p".toList) crf bit) n1.length none n1
  let n3 := replTokAux ("720p".toList) (resRepl ("720p".toList) crf bit) n2.length none n2
  replAltsAux codecAlts ("AV1".toList) n3.length none n3

/-! ### src/file_processing.py: destination version scanning -/

/-- Search for re.escape(tag) ++ (?:v(\d+))?, IGNORECASE, in a destination
filename; at the leftmost tag occurrence the optional group yields the
version, default 1 (untagged files count as version 1). -/
def searchTagVer (tag : List Char) : List Char → Option Nat
  | [] => none
  | c :: cs =>
    if lstartsWithCI tag (c :: cs) then
      match (c :: cs).drop tag.length with
      | v :: r2 =>
        if v == 'v' || v == 'V' then
          let vs := r2.takeWhile isDigitC
          if vs.isEmpty then some 1 else some (parseNat vs)
        else some 1
      | [] => some 1
    else searchTagVer tag cs

/-- src/file_processing.py, _find_existing_episode_version (lines 55-73):
highest version present for the tag in the destination listing, 0 if none. -/
def find_existing_episode_version (destL : List (List Char)) (season : Nat)
    (e : Int) : Nat :=
  destL.foldl
    (fun m f =>
      match searchTagVer (sTag season e) f with
      | some ver => if m < ver then ver else m
      | none => m) 0

/-- src/file_processing.py, _delete_older_episode_versions (lines 76-99):
no cleanup at keep_version <= 1, otherwise every matching file of a
strictly smaller version is removed. -/
def delete_older_episode_versions (destL : List (List Char)) (season : Nat)
    (e : Int) (keep : Nat) : List (List Char) :=
  if keep ≤ 1 then destL
  else
    destL.filter (fun f =>
      match searchTagVer (sTag season e) f with
      | some ver => !decide (ver < keep)
      | none => true)

/-! ### src/crf_helpers.py: determine_crf (lines 94-105) -/

/-- A cell of the CRF column: pandas hands the code either a string or a
number. -/
inductive CrfCell where
  | str (s : List Char)
  | num (n : Int)
deriving DecidableEq

/-- The sentinel test: isinstance(str) and strip().lower() == "vmaf". -/
def isVmafCell : CrfCell → Bool
  | .str s => toLowerL (stripWS s) == ("vmaf".toList)
  | .num _ => false

/-- Python int() applied to a string: strip, optional sign, digits. -/
def pyIntOfStr (s : List Char) : Option Int :=
  match stripWS s with
  | '+' :: ds => if !ds.isEmpty && ds.all isDigitC then some (parseNat ds : Nat) else none
  | '-' :: ds => if !ds.isEmpty && ds.all isDigitC then some (-(parseNat ds : Nat) : Int) else none
  | ds => if !ds.isEmpty && ds.all isDigitC then some (parseNat ds : Nat) else none

/-- Python int() applied to a CRF cell; none models the ValueError path. -/
def pyIntCell : CrfCell → Option Int
  | .str s => pyIntOfStr s
  | .num n => some n

/-- src/crf_helpers.py, determine_crf: the vmaf sentinel triggers the
adaptive search (its result is the parameter vmafResult; the code caches
and subtracts 4, and falls back to TV_CRF_FALLBACK on a failed search); any
other cell is parsed with int(), falling back on a ValueError.  Every
return statement of the source produces an integer. -/
def determine_crf (cell : CrfCell) (vmafResult : Option Int) (tvCrfFallback : Int) :
    Option Int :=
  if isVmafCell cell then
    match vmafResult with
    | none => some tvCrfFallback
    | some q => some (q - 4)
  else
    match pyIntCell cell with
    | some n => some n
    | none => some tvCrfFallback

/-! ### Python path suffix semantics (pathlib and os.path.splitext) -/

/-- Index of the last '.' in the name, if any. -/
def lastDotIdx (name : List Char) : Option Nat :=
  (List.range name.length).foldl
    (fun acc i => if name.getD i ' ' == '.' then some i else acc) none

/-- pathlib suffix: from the last dot when 0 < i < len - 1, else empty.
For "show.tar.gz" this is ".gz" -- never ".tar.gz". -/
def pySuffix (name : List Char) : List Char :=
  match lastDotIdx name with
  | some i => if 0 < i ∧ i < name.length - 1 then name.drop i else []
  | none => []

/-- pathlib stem: the name without its suffix. -/
def pyStem (name : List Char) : List Char :=
  name.take (name.length - (pySuffix name).length)

/-- os.path.splitext extension: from the last dot, except that the leading
dots of a name never begin an extension. -/
def pySplitextExt (name : List Char) : List Char :=
  match lastDotIdx name with
  | some i => if (name.take i).any (fun c => c != '.') then name.drop i else []
  | none => []

/-! ### src/file_processing.py: process_file (lines 102-254), for one
destination directory.  The destination listing, the quarantine listing,
the presence of the source and of the working-area artifact form the
state; the probed codec, the bit depth, the adaptive-search result and
the encoder outcome are environment parameters. -/

structure RowInfo where
  season : Nat
  offset : Int
  moveOnly : Bool
  crf : CrfCell
deriving DecidableEq

structure EncodeEnv where
  codec : List Char
  forceReencode : Bool
  vmafResult : Option Int
  tvCrfFallback : Int
  bitDepth : Int
  encodeOk : Bool
deriving DecidableEq

structure PState where
  dest : List (List Char)
  failuresTV : List (List Char)
  sourcePresent : Bool
  tmp : Option (List Char)
deriving DecidableEq

/-- The TV version guard of process_file (lines 146-171): season > 0,
extraction succeeded, and the destination holds an equal or newer version. -/
def versionBlocked (destL : List (List Char)) (tv : Bool) (season : Nat)
    (info : Option (Int × Nat)) : Bool :=
  match info with
  | some (e, v) =>
    tv && decide (0 < season) &&
      (let m := find_existing_episode_version destL season e
       decide (0 < m) && (decide (v < m) || v == m))
  | none => false

/-- The move-without-encode test of process_file (line 181). -/
def moveOnlyBranch (row : RowInfo) (env : EncodeEnv) : Bool :=
  row.moveOnly ||
    ((env.codec == ("hevc".toList) || env.codec == ("av1".toList)) && !env.forceReencode)

/-- The post-commit supersession cleanup (lines 185-191 and 229-235). -/
def cleanupVersions (destL : List (List Char)) (tv : Bool) (season : Nat)
    (info : Option (Int × Nat)) : List (List Char) :=
  match info with
  | some (e, v) =>
    if tv && decide (0 < season) then delete_older_episode_versions destL season e v
    else destL
  | none => destL

/-- process_file after the extraction of (episode, version): version guard,
then either the plain move or the encode with its success and failure
paths.  On encode failure the working-area artifact is deleted and nothing
else changes (lines 239-254). -/
def processFileCore (tv : Bool) (name : List Char) (row : RowInfo) (env : EncodeEnv)
    (info : Option (Int × Nat)) (st : PState) : PState × Bool :=
  if versionBlocked st.dest tv row.season info then
    ({st with failuresTV := name :: st.failuresTV, sourcePresent := false}, false)
  else if moveOnlyBranch row env then
    ({st with dest := cleanupVersions (name :: st.dest) tv row.season info,
              sourcePresent := false}, true)
  else
    match determine_crf row.crf env.vmafResult env.tvCrfFallback with
    | none => (st, false)
    | some crf =>
      let stem0 := build_output_name (pyStem name) crf env.bitDepth
      let outStem :=
        if tv && decide (0 < row.season) then tag_episode_in_name name stem0 row.season row.offset
        else stem0
      let outName := outStem ++ (".mkv".toList)
      if env.encodeOk then
        ({st with dest := cleanupVersions (outName :: st.dest) tv row.season info,
                  sourcePresent := false, tmp := none}, true)
      else ({st with tmp := none}, false)

/-- process_file: the junk guard, then extraction for TV rows with a
positive season, then the core. -/
def process_file (tv : Bool) (name : List Char) (row : RowInfo) (env : EncodeEnv)
    (st : PState) : PState × Bool :=
  if !st.sourcePresent then (st, false)
  else
    let info :=
      if tv && decide (0 < row.season) then extract_episode_number_and_version name row.offset
      else none
    processFileCore tv name row env info st

/-! ### src/utils.py: the lock manager (lines 59-123).

A filesystem is the finite set of existing paths.  os.open with
O_CREAT | O_EXCL is one atomic step: it fails exactly when the path
already exists.  Two concurrent acquisition attempts therefore serialize
into one of the two orders of these atomic steps. -/

/-- The sidecar lock path: with_suffix appends ".lock" to the filename. -/
def lockPathFor (p : List Char) : List Char := p ++ (".lock".toList)

/-- _lock_dir_atomic / the exclusive create inside file_sidecar_lock:
atomically create the marker, failing if it exists. -/
def acquireLock (fs : Finset (List Char)) (l : List Char) :
    Finset (List Char) × Bool :=
  if l ∈ fs then (fs, false) else (insert l fs, true)

/-- _unlock_dir_fd / the finally-block unlink: remove the marker. -/
def releaseLock (fs : Finset (List Char)) (l : List Char) : Finset (List Char) :=
  fs.erase l

/-- Two processes race to claim the same file: the two atomic exclusive
creates happen in one of the two orders; `firstIsA` selects which process
went first.  Returns (process A's outcome, process B's outcome). -/
def twoClaimResults (fs : Finset (List Char)) (p : List Char) (firstIsA : Bool) :
    Bool × Bool :=
  let l := lockPathFor p
  let r1 := acquireLock fs l
  let r2 := acquireLock r1.1 l
  if firstIsA then (r1.2, r2.2) else (r2.2, r1.2)

/-- file_sidecar_lock as a scope: acquire; if held, run the body (its Bool
is the processing outcome) and remove the marker in the finally block;
otherwise leave the filesystem untouched.  Returns (filesystem, acquired,
body outcome). -/
def sidecarScope (fs : Finset (List Char)) (p : List Char)
    (body : Finset (List Char) → Finset (List Char) × Bool) :
    Finset (List Char) × Bool × Bool :=
  let l := lockPathFor p
  let a := acquireLock fs l
  if a.2 then
    let b := body a.1
    (releaseLock b.1 l, true, b.2)
  else (a.1, false, false)

/-! ### src/retention.py: enforce_failure_retention (lines 7-32).

time.time() and st_mtime are measured in seconds; the age in whole days is
the floor division by 86400 as computed on line 24. -/

def retention_age_days (now mtime : Int) : Int := (now - mtime).fdiv 86400

/-- The deletion test of line 26: age_days >= FAILURE_RETENTION_DAYS. -/
def retention_deletes (retentionDays now mtime : Int) : Bool :=
  decide (retentionDays ≤ retention_age_days now mtime)

/-- The sweep over the quarantine tree: files are (name, mtime) pairs and
exactly those meeting the deletion test are removed. -/
def enforce_failure_retention (retentionDays now : Int)
    (files : List (List Char × Int)) : List (List Char × Int) :=
  files.filter (fun f => !retention_deletes retentionDays now f.2)

/-! ### src/main.py: per-file classification and lock handling.

process_directory_movies_any (lines 52-96) and
process_directory_tv_via_csv (lines 99-202), embedded per candidate file.
Slot-lock acquisitions are atomic filesystem steps whose outcomes depend
on what other processes hold at that moment; the list `sched` supplies the
outcome of each successive acquisition attempt made for this file (an
exhausted list denotes a failed attempt).  Rule regexes come from the CSV;
re.search on them is the oracle parameter, none modelling re.error. -/

def tarSuffixes : List (List Char) := [(".tar".toList), (".tar.gz".toList)]

def allowedMovieExts : List (List Char) := [(".mkv".toList), (".mp4".toList)]

/-- The archive test of lines 60 and 107: file_path.suffix.lower() against
the tar list. -/
def tv_root_is_archive (name : List Char) : Bool :=
  tarSuffixes.contains (toLowerL (pySuffix name))

/-- The guard of extract_videos_from_tar (line 213), using
os.path.splitext with no lowering. -/
def tar_guard_allows (name : List Char) : Bool :=
  tarSuffixes.contains (pySplitextExt name)

inductive MovieDirClass where
  | archive
  | candidate
  | rejected
deriving DecidableEq

/-- The pre-lock classification of process_directory_movies_any
(lines 59-70): tar first, then the allowed-extension test whose failure
moves the file to the quarantine area. -/
def classify_movie_dir_file (name : List Char) : MovieDirClass :=
  if tv_root_is_archive name then .archive
  else if allowedMovieExts.contains (toLowerL (pySuffix name)) then .candidate
  else .rejected

inductive MovieDirOutcome where
  | archiveHandled
  | rejected
  | skippedClaim
  | skippedSlot
  | processed (ok : Bool)
  | skippedGone
deriving DecidableEq

/-- One file of the movie-subdirectory loop (lines 55-95): tar extraction
and the extension quarantine run before any lock; then the sidecar claim,
then the subdir slot, each failure skipping the file. -/
def movie_dir_handle_file (name : List Char) (sidecarOk slotOk fileStillThere pf : Bool) :
    MovieDirOutcome :=
  match classify_movie_dir_file name with
  | .archive => .archiveHandled
  | .rejected => .rejected
  | .candidate =>
    if !sidecarOk then .skippedClaim
    else if !slotOk then .skippedSlot
    else if fileStillThere then .processed pf
    else .skippedGone

/-- A CSV rule row as the matcher consumes it. -/
structure Rule where
  term : List Char
  useRegex : Bool

/-- Lines 127-138: empty search terms are skipped; regex rows consult
re.search (an re.error row is skipped); plain rows use a case-insensitive
substring test. -/
def ruleMatches (oracle : List Char → List Char → Option Bool) (r : Rule)
    (name : List Char) : Bool :=
  let term := stripWS r.term
  if term.isEmpty then false
  else if r.useRegex then (oracle term name).getD false
  else containsSub (toLowerL term) (toLowerL name)

inductive TVOutcome where
  | archiveHandled
  | quarantined
  | processedTV (ok : Bool)
  | processedMovie (ok : Bool)
  | skippedClaim
  | skippedSlot
  | skippedGone
deriving DecidableEq

/-- The rule loop of lines 126-157 for one file: on a matching row the
root slot is attempted (consuming one schedule entry); a failed attempt or
a vanished file continues with the NEXT row; a successful process_file
call ends the loop.  Returns the outcome, if any, and the unconsumed
schedule. -/
def ruleLoop (oracle : List Char → List Char → Option Bool) (name : List Char)
    (fileStillThere pfTV : Bool) :
    List Rule → List Bool → Option TVOutcome × List Bool
  | [], sched => (none, sched)
  | r :: rs, sched =>
    if ruleMatches oracle r name then
      match sched with
      | ok :: rest =>
        if ok then
          if fileStillThere then (some (.processedTV pfTV), rest)
          else ruleLoop oracle name fileStillThere pfTV rs rest
        else ruleLoop oracle name fileStillThere pfTV rs rest
      | [] => ruleLoop oracle name fileStillThere pfTV rs []
    else ruleLoop oracle name fileStillThere pfTV rs sched

/-- _looks_like_episode_name (lines 23-29): an SxxExx-style token
(S\d{1,2}E\d{1,3}, IGNORECASE) or any EPISODE_PATTERNS match. -/
def sdeTail : List Char → Bool
  | a :: b :: c :: rest =>
    isDigitC a &&
      ((isDigitC b && (c == 'E' || c == 'e') &&
        (match rest with
         | d :: _ => isDigitC d
         | [] => false))
       || ((b == 'E' || b == 'e') && isDigitC c))
  | _ => false

def containsSdE : List Char → Bool
  | [] => false
  | c :: cs => ((c == 'S' || c == 's') && sdeTail cs) || containsSdE cs

def looks_like_episode_name (name : List Char) : Bool :=
  containsSdE name || (runEpisodePatterns name).isSome

/-- MOVIE_YEAR_RE from src/naming.py line 7:
(?<!\d)(19\d{2}|20\d{2})(?!\d) as a search test. -/
def yearHere : List Char → Bool
  | a :: b :: c :: d :: rest =>
    ((a == '1' && b == '9') || (a == '2' && b == '0')) && isDigitC c && isDigitC d &&
      (match rest with
       | e :: _ => !isDigitC e
       | [] => true)
  | _ => false

def hasMovieYear : Option Char → List Char → Bool
  | prev, c :: cs =>
    ((match prev with
      | none => true
      | some p => !isDigitC p) && yearHere (c :: cs)) || hasMovieYear (some c) cs
  | _, [] => false

/-- _movie_reasons (lines 32-49) reduced to its truthiness: a non-episode
name with a probed duration of at least 3900 seconds or a year in the stem
(the stem again failing the episode test). -/
def movie_reasons (name : List Char) (durSec : Int) : Bool :=
  if !looks_like_episode_name name then
    decide (3900 ≤ durSec)
      || (hasMovieYear none (pyStem name) && !looks_like_episode_name (pyStem name))
  else false

/-- One file of the TV-root loop (lines 102-201): the tar branch (root
slot) first; then the sidecar claim; then the rule loop; an unmatched file
goes to the movie-inference branch (subdir slot) or, with no movie
reasons, to the quarantine move guarded by one more root-slot attempt. -/
def tv_root_handle_file (name : List Char) (rules : List Rule)
    (oracle : List Char → List Char → Option Bool)
    (sidecarOk : Bool) (sched : List Bool) (fileStillThere : Bool)
    (durSec : Int) (pfTV pfMovie : Bool) : TVOutcome :=
  if tv_root_is_archive name then
    match sched with
    | ok :: _ => if ok then .archiveHandled else .skippedSlot
    | [] => .skippedSlot
  else if !sidecarOk then .skippedClaim
  else
    match ruleLoop oracle name fileStillThere pfTV rules sched with
    | (some out, _) => out
    | (none, sched1) =>
      if movie_reasons name durSec then
        match sched1 with
        | ok :: _ =>
          if ok then
            if fileStillThere then .processedMovie pfMovie else .skippedGone
          else .skippedSlot
        | [] => .skippedSlot
      else
        match sched1 with
        | ok :: _ =>
          if ok then
            if fileStillThere then .quarantined else .skippedGone
          else .skippedSlot
        | [] => .skippedSlot

/-! ## Claims -/

/-- C1: the per-file Claim (the sidecar ".lock" marker, created with an
exclusive create) is exclusive: in either order of the two atomic creates,
the two racing acquisitions never both succeed, and on a path with no
pre-existing marker exactly one of them succeeds; the holder's scope
removes the marker on exit whatever the body's outcome was. -/
theorem C1_claim_mutual_exclusion (fs : Finset (List Char)) (p : List Char)
    (ord : Bool) (body : Finset (List Char) → Finset (List Char) × Bool) :
    (¬((twoClaimResults fs p ord).1 = true ∧ (twoClaimResults fs p ord).2 = true)) ∧
    (lockPathFor p ∉ fs → (twoClaimResults fs p ord).1 ≠ (twoClaimResults fs p ord).2) ∧
    (lockPathFor p ∉ fs →
      ((twoClaimResults fs p ord).1 = true ∨ (twoClaimResults fs p ord).2 = true)) ∧
    ((sidecarScope fs p body).2.1 = true → lockPathFor p ∉ (sidecarScope fs p body).1) := by
  by_cases hm : lockPathFor p ∈ fs <;>
    cases ord <;>
      simp [twoClaimResults, sidecarScope, acquireLock, releaseLock, hm]

theorem C1_witness :
    (twoClaimResults ∅ ("a.mkv".toList) true).1 = true ∧
    (twoClaimResults ∅ ("a.mkv".toList) true).2 = false ∧
    lockPathFor ("a.mkv".toList) ∉
      (sidecarScope ∅ ("a.mkv".toList) (fun s => (s, false))).1 :=
  ⟨by decide, by decide,
    (C1_claim_mutual_exclusion ∅ ("a.mkv".toList) true (fun s => (s, false))).2.2.2
      (by decide)⟩

/-- C5: a base name already containing an SxxExx token is returned
unchanged by tag_episode_in_name for every original name, season and
offset. -/
theorem C5_tagging_idempotent (orig base : List Char) (season : Nat) (offset : Int)
    (h : containsSxxExx base = true) :
    tag_episode_in_name orig base season offset = base := by
  simp [tag_episode_in_name, h]

theorem C5_witness :
    tag_episode_in_name ("whatever - 07.mkv".toList)
      ("A Show - S01E02 1080p".toList) 3 5 = ("A Show - S01E02 1080p".toList) :=
  C5_tagging_idempotent _ _ 3 5 (by decide)

/-- C9: the retention sweep removes a quarantined file exactly when the
floor of its age in seconds over 86400 reaches the configured threshold; a
file of age exactly the threshold (in days) is deleted and a file one day
younger is retained. -/
theorem C9_retention_boundary (retentionDays now : Int)
    (files : List (List Char × Int)) (nm : List Char) (mt : Int) :
    ((nm, mt) ∈ enforce_failure_retention retentionDays now files ↔
      ((nm, mt) ∈ files ∧ retention_age_days now mt < retentionDays)) ∧
    (now - mt = 86400 * retentionDays →
      retention_deletes retentionDays now mt = true) ∧
    (now - mt = 86400 * (retentionDays - 1) →
      retention_deletes retentionDays now mt = false) := by
  refine ⟨?_, ?_, ?_⟩
  · simp [enforce_failure_retention, retention_deletes, List.mem_filter, not_le]
  · intro h
    simp only [retention_deletes, retention_age_days, h,
      Int.mul_fdiv_cancel_left _ (by norm_num : (86400 : Int) ≠ 0), decide_eq_true_eq]
    exact le_refl _
  · intro h
    simp only [retention_deletes, retention_age_days, h,
      Int.mul_fdiv_cancel_left _ (by norm_num : (86400 : Int) ≠ 0)]
    simp only [decide_eq_false_iff_not, not_le]
    omega

theorem C9_witness :
    retention_deletes 30 (86400 * 30) 0 = true ∧
    retention_deletes 30 (86400 * 29) 0 = false ∧
    (("old".toList, (0 : Int)) ∈
        enforce_failure_retention 30 (86400 * 29) [(("old".toList), (0 : Int))]) :=
  ⟨(C9_retention_boundary 30 (86400 * 30) [] [] 0).2.1 (by norm_num),
   (C9_retention_boundary 30 (86400 * 29) [] [] 0).2.2 (by norm_num),
   ((C9_retention_boundary 30 (86400 * 29) [(("old".toList), (0 : Int))]
      ("old".toList) 0).1).2 ⟨by simp, by decide⟩⟩

/-- C10: determine_crf always yields an integer: the vmaf sentinel maps a
successful adaptive search to its value minus 4 and a failed one to the TV
fallback, and any other cell parses with int() or falls back; the result
is never none, so the crf-is-None failure branch of process_file cannot be
taken. -/
theorem C10_crf_total (cell : CrfCell) (vmafResult : Option Int) (fallback : Int) :
    (determine_crf cell vmafResult fallback).isSome = true ∧
    determine_crf cell vmafResult fallback =
      some (if isVmafCell cell then
              (match vmafResult with
               | none => fallback
               | some q => q - 4)
            else (pyIntCell cell).getD fallback) := by
  unfold determine_crf
  by_cases hv : isVmafCell cell = true
  · cases vmafResult <;> simp [hv]
  · simp only [Bool.not_eq_true] at hv
    cases h : pyIntCell cell <;> simp [hv, h]

/-- C6: a ".tar" extension is classified archive before every other check,
but pathlib's suffix of "show.tar.gz" is ".gz", so the archive branch
(line 60 and line 107 of src/main.py) never fires for ".tar.gz" files:
in a movie subdirectory such a file falls through to the allowed-extension
test and is moved to the quarantine area, and even the membership test
inside extract_videos_from_tar could never accept it.  The ".tar.gz" entry
of the code's own suffix list is unreachable. -/
theorem C6_tar_gz_misclassified :
    classify_movie_dir_file ("show.tar".toList) = .archive ∧
    tv_root_is_archive ("show.tar".toList) = true ∧
    classify_movie_dir_file ("show.tar.gz".toList) = .rejected ∧
    tv_root_is_archive ("show.tar.gz".toList) = false ∧
    pySuffix ("show.tar.gz".toList) = (".gz".toList) ∧
    tar_guard_allows ("show.tar.gz".toList) = false := by
  decide

/-! Auxiliary facts: each of the four EPISODE_PATTERNS regexes has exactly
one capturing group, so every match yields a singleton group list. -/

theorem epPat1Search_one_group (cs : List Char) :
    ∀ prev gs, epPat1Search prev cs = some gs → gs.length = 1 := by
  induction cs with
  | nil => intro prev gs h; simp [epPat1Search] at h
  | cons c cs ih =>
    intro prev gs h
    rw [epPat1Search] at h
    split at h
    · cases h; rfl
    · exact ih _ _ h

theorem epPat2Search_one_group (cs : List Char) :
    ∀ prev gs, epPat2Search prev cs = some gs → gs.length = 1 := by
  induction cs with
  | nil => intro prev gs h; simp [epPat2Search] at h
  | cons c cs ih =>
    intro prev gs h
    rw [epPat2Search] at h
    split at h
    · cases h; rfl
    · exact ih _ _ h

theorem epPat3Search_one_group (cs : List Char) :
    ∀ gs, epPat3Search cs = some gs → gs.length = 1 := by
  induction cs with
  | nil => intro gs h; simp [epPat3Search] at h
  | cons c cs ih =>
    intro gs h
    rw [epPat3Search] at h
    split at h
    · split at h
      · cases h; rfl
      · exact ih _ h
    · exact ih _ h

theorem epPat4Search_one_group (cs : List Char) :
    ∀ prev gs, epPat4Search prev cs = some gs → gs.length = 1 := by
  induction cs with
  | nil => intro prev gs h; simp [epPat4Search] at h
  | cons c cs ih =>
    intro prev gs h
    rw [epPat4Search] at h
    split at h
    · split at h
      · cases h; rfl
      · exact ih _ _ h
    · exact ih _ _ h

theorem runEpisodePatterns_one_group (nm : List Char) (gs : List (List Char))
    (h : runEpisodePatterns nm = some gs) : gs.length = 1 := by
  unfold runEpisodePatterns at h
  split at h
  · cases h; exact epPat1Search_one_group nm none _ (by assumption)
  · split at h
    · cases h; exact epPat2Search_one_group nm none _ (by assumption)
    · split at h
      · cases h; exact epPat3Search_one_group nm _ (by assumption)
      · exact epPat4Search_one_group nm none _ h

/-- The winning pattern never carries a second capturing group, so the
extracted version is 1 for every filename and offset. -/
theorem extract_version_always_one (nm : List Char) (off : Int) :
    ((extract_episode_number_and_version nm off).map Prod.snd).getD 1 = 1 := by
  unfold extract_episode_number_and_version
  cases hrun : runEpisodePatterns nm with
  | none => rfl
  | some gs =>
    have hlen := runEpisodePatterns_one_group nm gs hrun
    match gs, hlen with
    | [g], _ => rfl

/-- The concrete scenario inputs of the S02E05 upgrade claim: destination
already holds the episode untagged (version 1), the candidate filename
carries an explicit v2 marker. -/
def scenarioRow : RowInfo := ⟨2, 0, false, .str ("vmaf".toList)⟩

def scenarioEnv : EncodeEnv := ⟨("h264".toList), false, some 32, 30, 10, true⟩

def scenarioSt : PState := ⟨[("Existing S02E05 1080p.mkv".toList)], [], true, none⟩

/-- C3: none of the four shipped EPISODE_PATTERNS has a second capturing
group, so extraction yields version 1 for every filename; in particular a
candidate named with an explicit v2 marker extracts as (5, 1), ties with
the existing untagged version-1 destination file, and process_file
quarantines it instead of committing and deleting the v1 file.  This
contradicts the documented intent of extract_episode_number_and_version
(src/naming.py lines 88-94: "version number (v2, v3, ...)"). -/
theorem C3_v2_scenario_quarantined :
    (∀ nm off, ((extract_episode_number_and_version nm off).map Prod.snd).getD 1 = 1) ∧
    extract_episode_number_and_version ("Show E05v2.mkv".toList) 0 = some (5, 1) ∧
    process_file true ("Show E05v2.mkv".toList) scenarioRow scenarioEnv scenarioSt =
      ({scenarioSt with failuresTV := [("Show E05v2.mkv".toList)],
                        sourcePresent := false}, false) :=
  ⟨extract_version_always_one, by decide, by decide⟩

/-- Unfolding of the extraction at a winning pattern. -/
theorem extract_eq_of_run (nm : List Char) (off : Int) (gs : List (List Char))
    (h : runEpisodePatterns nm = some gs) :
    extract_episode_number_and_version nm off =
      some ((if (parseNat (gs.headD []) : Int) - off < 1 then (parseNat (gs.headD []) : Int)
             else (parseNat (gs.headD []) : Int) - off),
            (match gs with
             | _ :: g2 :: _ => if !g2.isEmpty && g2.all isDigitC then parseNat g2 else 1
             | _ => 1)) := by
  unfold extract_episode_number_and_version
  simp only [h]
  cases gs with
  | nil => rfl
  | cons a t => cases t <;> rfl

/-- C4: the corrected episode is raw - offset when that is at least 1 and
the raw extracted number otherwise; positivity of the output however needs
the raw number itself to be positive. -/
theorem C4_offset_correction (name : List Char) (off : Int) (raw : Nat)
    (h : rawEpisode name = some raw) :
    (extract_episode_number_and_version name off).map Prod.fst =
      some (if (raw : Int) - off < 1 then (raw : Int) else (raw : Int) - off) ∧
    (1 ≤ raw → ∀ e v,
      extract_episode_number_and_version name off = some (e, v) → 1 ≤ e) := by
  unfold rawEpisode at h
  cases hrun : runEpisodePatterns name with
  | none => rw [hrun] at h; exact absurd h (by simp)
  | some gs =>
    rw [hrun] at h
    have hraw : parseNat (gs.headD []) = raw := by
      injection h
    have hex := extract_eq_of_run name off gs hrun
    rw [hraw] at hex
    constructor
    · rw [hex]
      simp
    · intro h1 e v heq
      rw [hex] at heq
      simp only [Option.some.injEq, Prod.mk.injEq] at heq
      obtain ⟨he, -⟩ := heq
      by_cases hc : (raw : Int) - off < 1
      · rw [if_pos hc] at he
        omega
      · rw [if_neg hc] at he
        omega

theorem C4_witness :
    rawEpisode ("Show - 14.mkv".toList) = some 14 ∧
    (extract_episode_number_and_version ("Show - 14.mkv".toList) 14).map Prod.fst =
      some (if (14 : Int) - 14 < 1 then (14 : Int) else (14 : Int) - 14) :=
  ⟨by decide, (C4_offset_correction ("Show - 14.mkv".toList) 14 14 (by decide)).1⟩

/-- C4 fails as stated on a raw extracted episode of 0: "Show E00.mkv"
with offset 0 yields episode 0, a non-positive episode number. -/
theorem C4_counterexample :
    extract_episode_number_and_version ("Show E00.mkv".toList) 0 = some (0, 1) := by
  decide

/-! Helper lemmas shared by the process_file claims. -/

theorem determine_crf_isSome (cell : CrfCell) (vr : Option Int) (fb : Int) :
    ∃ c, determine_crf cell vr fb = some c := by
  unfold determine_crf
  by_cases hv : isVmafCell cell = true
  · cases vr <;> simp [hv]
  · simp only [Bool.not_eq_true] at hv
    cases h : pyIntCell cell <;> simp [hv, h]

/-- A file whose parsed tag version is below keep_version >= 2 does not
survive _delete_older_episode_versions. -/
theorem not_mem_delete_older (destL : List (List Char)) (season : Nat) (e : Int)
    (keep : Nat) (hk : 2 ≤ keep) (f : List Char) (ver : Nat)
    (hver : searchTagVer (sTag season e) f = some ver) (hlt : ver < keep) :
    f ∉ delete_older_episode_versions destL season e keep := by
  unfold delete_older_episode_versions
  rw [if_neg (by omega)]
  intro hmem
  rw [List.mem_filter] at hmem
  have hp := hmem.2
  simp only [hver] at hp
  simp only [Bool.not_eq_true', decide_eq_false_iff_not, not_lt] at hp
  omega

theorem not_mem_cleanup (destL : List (List Char)) (season : Nat) (e : Int)
    (v : Nat) (hs : 0 < season) (hv2 : 2 ≤ v) (f : List Char) (ver : Nat)
    (hver : searchTagVer (sTag season e) f = some ver) (hlt : ver < v) :
    f ∉ cleanupVersions destL true season (some (e, v)) := by
  have h := not_mem_delete_older destL season e v hv2 f ver hver hlt
  simpa [cleanupVersions, hs] using h

/-- C2: with season > 0 and extracted (episode, version) = (e, v), when the
destination's maximum existing version m for the episode is positive:
a candidate with v <= m is quarantined with the destination untouched,
while v > m proceeds and a successful commit (the plain move, or a
successful encode) removes every destination file of a strictly smaller
parsed version. -/
theorem C2_version_conflict (name : List Char) (row : RowInfo) (env : EncodeEnv)
    (st : PState) (e : Int) (v : Nat)
    (hs : 0 < row.season)
    (hm : 0 < find_existing_episode_version st.dest row.season e) :
    (v ≤ find_existing_episode_version st.dest row.season e →
      processFileCore true name row env (some (e, v)) st =
        ({st with failuresTV := name :: st.failuresTV, sourcePresent := false}, false)) ∧
    (find_existing_episode_version st.dest row.season e < v →
      (moveOnlyBranch row env = true ∨ env.encodeOk = true) →
      (processFileCore true name row env (some (e, v)) st).2 = true ∧
      (∀ f, f ∈ st.dest → ∀ ver, searchTagVer (sTag row.season e) f = some ver →
        ver < v → f ∉ (processFileCore true name row env (some (e, v)) st).1.dest)) := by
  constructor
  · intro hle
    have hb : versionBlocked st.dest true row.season (some (e, v)) = true := by
      simp [versionBlocked, hs]
      omega
    simp [processFileCore, hb]
  · intro hgt hc
    have hb : versionBlocked st.dest true row.season (some (e, v)) = false := by
      simp [versionBlocked, hs]
      omega
    have hv2 : 2 ≤ v := by omega
    by_cases hmo : moveOnlyBranch row env = true
    · constructor
      · simp [processFileCore, hb, hmo]
      · intro f hf ver hver hlt
        simp only [processFileCore, hb, hmo, Bool.false_eq_true, if_false, if_true]
        exact not_mem_cleanup (name :: st.dest) row.season e v hs hv2 f ver hver hlt
    · have henc : env.encodeOk = true := by
        rcases hc with h' | h'
        · exact absurd h' hmo
        · exact h'
      obtain ⟨c, hcrf⟩ := determine_crf_isSome row.crf env.vmafResult env.tvCrfFallback
      rw [Bool.not_eq_true] at hmo
      constructor
      · simp [processFileCore, hb, hmo, hcrf, henc]
      · intro f hf ver hver hlt
        simp only [processFileCore, hb, hmo, hcrf, henc, Bool.false_eq_true,
          if_false, if_true]
        exact not_mem_cleanup _ row.season e v hs hv2 f ver hver hlt

/-- The concrete upgrade instance: destination holds the untagged episode
(version 1), the candidate arrives as version 2 with a move-only row. -/
def c2Row : RowInfo := ⟨2, 0, true, .num 30⟩

def c2Env : EncodeEnv := ⟨("h264".toList), false, none, 30, 10, false⟩

def c2St : PState := ⟨[("X S02E05.mkv".toList)], [], true, none⟩

theorem C2_witness :
    (processFileCore true ("Showname E05 1080p.mkv".toList) c2Row c2Env
        (some (5, 2)) c2St).2 = true ∧
    ("X S02E05.mkv".toList) ∉
      (processFileCore true ("Showname E05 1080p.mkv".toList) c2Row c2Env
        (some (5, 2)) c2St).1.dest := by
  have h := (C2_version_conflict ("Showname E05 1080p.mkv".toList) c2Row c2Env c2St
    5 2 (by decide) (by decide)).2 (by decide) (Or.inl (by decide))
  exact ⟨h.1, h.2 ("X S02E05.mkv".toList) (by decide) 1 (by decide) (by decide)⟩

/-- C8: when the encode subprocess fails, process_file deletes the unfinished
working-area artifact, reports failure, and leaves everything else as it
was: the source stays present, the destination listing and the quarantine
listing are unchanged. -/
theorem C8_encode_failure_clean (tv : Bool) (name : List Char) (row : RowInfo)
    (env : EncodeEnv) (info : Option (Int × Nat)) (st : PState)
    (hv : versionBlocked st.dest tv row.season info = false)
    (hmo : moveOnlyBranch row env = false)
    (he : env.encodeOk = false) :
    processFileCore tv name row env info st = ({st with tmp := none}, false) := by
  obtain ⟨c, hcrf⟩ := determine_crf_isSome row.crf env.vmafResult env.tvCrfFallback
  simp [processFileCore, hv, hmo, hcrf, he]

def c8Row : RowInfo := ⟨1, 0, false, .num 30⟩

def c8Env : EncodeEnv := ⟨("h264".toList), false, none, 30, 10, false⟩

def c8St : PState := ⟨[], [], true, some ("leftover.mkv".toList)⟩

theorem C8_witness :
    processFileCore true ("Show - 03 [1080p].mkv".toList) c8Row c8Env
      (some (3, 1)) c8St = ({c8St with tmp := none}, false) :=
  C8_encode_failure_clean true ("Show - 03 [1080p].mkv".toList) c8Row c8Env
    (some (3, 1)) c8St (by decide) (by decide) (by decide)

/-- With a schedule on which every slot acquisition fails, the rule loop
settles no outcome and hands back an all-failing schedule. -/
theorem ruleLoop_all_false (oracle : List Char → List Char → Option Bool)
    (name : List Char) (fe pf : Bool) (rules : List Rule) :
    ∀ sched, (∀ b ∈ sched, b = false) →
      (ruleLoop oracle name fe pf rules sched).1 = none ∧
      (∀ b ∈ (ruleLoop oracle name fe pf rules sched).2, b = false) := by
  induction rules with
  | nil => intro sched h; exact ⟨rfl, h⟩
  | cons r rs ih =>
    intro sched h
    cases sched with
    | nil =>
      rw [ruleLoop]
      split
      · exact ih [] (by simp)
      · exact ih [] (by simp)
    | cons ok rest =>
      have hok : ok = false := h ok (List.mem_cons_self ok rest)
      subst hok
      rw [ruleLoop]
      split
      · simp only [Bool.false_eq_true, if_false]
        exact ih rest (fun b hb => h b (List.mem_cons_of_mem _ hb))
      · exact ih (false :: rest) h

/-- C7, as it actually holds.  A failed sidecar Claim skips the file; a
slot schedule on which every acquisition fails skips the file; in the
movie subdirectories any lock failure skips the candidate.  The original
claim fails when a slot acquisition fails at a matching rule but a later
one succeeds (see the counterexample). -/
theorem C7_lock_contention (name : List Char) (rules : List Rule)
    (oracle : List Char → List Char → Option Bool) (sidecarOk : Bool)
    (sched : List Bool) (fe : Bool) (dur : Int) (pfTV pfM : Bool)
    (mvName : List Char) (mvSidecar mvSlot mvThere mvPf : Bool) :
    (tv_root_is_archive name = false → sidecarOk = false →
      tv_root_handle_file name rules oracle sidecarOk sched fe dur pfTV pfM =
        .skippedClaim) ∧
    ((∀ b ∈ sched, b = false) →
      (tv_root_handle_file name rules oracle sidecarOk sched fe dur pfTV pfM =
          .skippedClaim ∨
       tv_root_handle_file name rules oracle sidecarOk sched fe dur pfTV pfM =
          .skippedSlot)) ∧
    (classify_movie_dir_file mvName = .candidate →
      (mvSidecar = false ∨ mvSlot = false) →
      (movie_dir_handle_file mvName mvSidecar mvSlot mvThere mvPf = .skippedClaim ∨
       movie_dir_handle_file mvName mvSidecar mvSlot mvThere mvPf = .skippedSlot)) := by
  refine ⟨?_, ?_, ?_⟩
  · intro ha hsc
    subst hsc
    simp [tv_root_handle_file, ha]
  · intro hall
    unfold tv_root_handle_file
    by_cases ha : tv_root_is_archive name = true
    · rw [if_pos ha]
      cases sched with
      | nil => exact Or.inr rfl
      | cons ok rest =>
        have hok : ok = false := hall ok (List.mem_cons_self ok rest)
        subst hok
        simp
    · rw [if_neg ha]
      cases hsc : sidecarOk with
      | false => simp
      | true =>
        simp only [Bool.not_true, Bool.false_eq_true, if_false]
        obtain ⟨h1, h2⟩ := ruleLoop_all_false oracle name fe pfTV rules sched hall
        cases hrl : ruleLoop oracle name fe pfTV rules sched with
        | mk o s1 =>
          rw [hrl] at h1 h2
          subst h1
          simp only []
          by_cases hmr : movie_reasons name dur = true
          · rw [if_pos hmr]
            cases s1 with
            | nil => exact Or.inr rfl
            | cons b bs =>
              have hb : b = false := h2 b (List.mem_cons_self b bs)
              subst hb
              simp
          · rw [if_neg hmr]
            cases s1 with
            | nil => exact Or.inr rfl
            | cons b bs =>
              have hb : b = false := h2 b (List.mem_cons_self b bs)
              subst hb
              simp
  · intro hcand hlock
    unfold movie_dir_handle_file
    rw [hcand]
    rcases hlock with h' | h'
    · subst h'; simp
    · subst h'
      cases mvSidecar <;> simp

/-- C7 as literally stated is violated: a file matching a TV rule whose
root-slot acquisition fails at that moment falls through to the
unmatched-file handling, and when the slot is free again at the final
quarantine attempt the file is moved to the quarantine area — lock
contention has caused a quarantine.  Schedule: the slot is held during the
rule-match attempt (false) and free at the quarantine attempt (true). -/
theorem C7_counterexample :
    tv_root_handle_file ("MyShow.mkv".toList) [⟨("myshow".toList), false⟩]
      (fun _ _ => none) true [false, true] true 0 true true = .quarantined := by
  decide

theorem C7_witness :
    (tv_root_handle_file ("MyShow.mkv".toList) [⟨("myshow".toList), false⟩]
        (fun _ _ => none) true [false] true 0 true true = .skippedClaim ∨
     tv_root_handle_file ("MyShow.mkv".toList) [⟨("myshow".toList), false⟩]
        (fun _ _ => none) true [false] true 0 true true = .skippedSlot) ∧
    (movie_dir_handle_file ("film.mkv".toList) true false true true = .skippedClaim ∨
     movie_dir_handle_file ("film.mkv".toList) true false true true = .skippedSlot) := by
  have h := C7_lock_contention ("MyShow.mkv".toList) [⟨("myshow".toList), false⟩]
    (fun _ _ => none) true [false] true 0 true true
    ("film.mkv".toList) true false true true
  exact ⟨h.2.1 (by simp), h.2.2 (by decide) (Or.inr rfl)⟩

end PMP
